import Mathlib

/-!
Verification of the terminal bookmark-manager engine (`main.py`).

The Python source is shallowly embedded below: pure helpers become Lean
functions, and the stateful interactive loops (line editor, pickers,
confirmation, the main event loop) become structural recursions over an
explicit list of input events.  Strings are Lean `String`s with the
Python string primitives (`strip`, `split`, `lower`, `in`) re-implemented
structurally on the underlying character lists; Python ints are `Int`
(or `Nat` where the source value is provably non-negative); blocking
reads that never resolve are modelled with `Option`.
-/

/-- One bookmark record: `{title, url, folder, note}` (`main.py` stores
these as string dicts with exactly these four keys). -/
structure Bookmark where
  title : String
  url : String
  folder : String
  note : String
  deriving Repr, DecidableEq, Inhabited

/-- Python whitespace test used by `str.strip()` and `str.split()`. -/
def isWs (c : Char) : Bool := c.isWhitespace

/-- Python `str.strip()` on a character list: drop whitespace from both
ends. -/
def trimChars (cs : List Char) : List Char :=
  ((cs.dropWhile isWs).reverse.dropWhile isWs).reverse

/-- Python `str.strip()`. -/
def pyStrip (s : String) : String := String.mk (trimChars s.data)

/-- Python `str.lower()` (per-character lowering). -/
def lowerStr (s : String) : String := String.mk (s.data.map Char.toLower)

/-- Python `str.split()` with no separator: maximal non-whitespace runs,
never producing empty pieces.  `acc` holds the current run reversed. -/
def splitWsAux : List Char → List Char → List (List Char)
  | [], acc => if acc.isEmpty then [] else [acc.reverse]
  | c :: rest, acc =>
    if isWs c then
      if acc.isEmpty then splitWsAux rest []
      else acc.reverse :: splitWsAux rest []
    else splitWsAux rest (c :: acc)

/-- Python `" ".join(pieces)`. -/
def joinSpace : List String → String
  | [] => ""
  | [s] => s
  | s :: rest => s ++ " " ++ joinSpace rest

/-- Python `needle in hay` substring containment on character lists. -/
def containsSub (needle hay : List Char) : Bool :=
  hay.tails.any (fun t => needle.isPrefixOf t)

/-- Python `needle in hay` on strings. -/
def strContains (hay needle : String) : Bool :=
  containsSub needle.data hay.data

/-- `normalize_search` (main.py:377-384): strip outer whitespace, drop
leading `/` characters, split on whitespace, drop empty tokens (the
source's final `if t` filter is vacuous since `split()` never yields
empty pieces). -/
def normalize_search (query : String) : List String :=
  if query = "" then []
  else
    let cleaned := (trimChars query.data).dropWhile (fun c => c = '/')
    (splitWsAux cleaned []).map String.mk

/-- The haystack the search tokens are matched against
(main.py:631-637): the four fields, each lower-cased, joined by a
single space.  Note the tokens themselves are *not* lower-cased by the
source. -/
def searchableText (bm : Bookmark) : String :=
  joinSpace [lowerStr bm.title, lowerStr bm.url, lowerStr bm.folder, lowerStr bm.note]

/-- Folder-filter stage of `build_display_items` (main.py:619-624):
keep a record iff the filter is empty or equals its folder
case-insensitively. -/
def folderMatches (folderFilter : String) (bm : Bookmark) : Bool :=
  folderFilter = "" || lowerStr bm.folder = lowerStr folderFilter

/-- The folder-filtered `(original index, record)` list, as rebuilt at
main.py:619-624 (and again at 832-837, 904-909, 949-954). -/
def folderItems (bookmarks : List Bookmark) (folderFilter : String) : List (Nat × Bookmark) :=
  bookmarks.enum.filter (fun p => folderMatches folderFilter p.2)

/-- `build_display_items` (main.py:618-641): folder stage, then keep a
record iff every token of the normalized query occurs in its
`searchableText`. -/
def build_display_items (bookmarks : List Bookmark) (folderFilter query : String) :
    List (Nat × Bookmark) :=
  let items := folderItems bookmarks folderFilter
  let tokens := normalize_search query
  if tokens.isEmpty then items
  else items.filter (fun p => tokens.all (fun t => strContains (searchableText p.2) t))

/-- The search stage written as one unconditional filter: the `if
tokens.isEmpty` fast path of the source is behaviourally the same as
filtering with an empty conjunction. -/
theorem build_display_items_eq_filter (bookmarks : List Bookmark) (folderFilter query : String) :
    build_display_items bookmarks folderFilter query =
      (folderItems bookmarks folderFilter).filter
        (fun p => (normalize_search query).all (fun t => strContains (searchableText p.2) t)) := by
  unfold build_display_items
  cases h : (normalize_search query) with
  | nil => simp
  | cons a l => simp

/-- C1, amended.  The pipeline keeps a record iff every
whitespace-separated token of the query (after stripping leading `/`;
an empty token list keeps everything) is, written as-is, a substring of
the record's four fields joined by a single space and lower-cased:
matching is case-insensitive in the record's fields but case-sensitive
in the tokens, and it is a conjunction (`all`) across tokens. -/
theorem C1_search_filter (bookmarks : List Bookmark) (folderFilter query : String) :
    build_display_items bookmarks folderFilter query =
      (folderItems bookmarks folderFilter).filter
        (fun p => (normalize_search query).all (fun t => strContains (searchableText p.2) t)) :=
  build_display_items_eq_filter bookmarks folderFilter query

/-- C1 fails as stated: matching is not independent of the letter case
of the tokens.  The record whose title is "Foo Site" is kept by the
query "foo" but dropped by the query "FOO", because the source lowers
only the record fields, never the token. -/
theorem C1_counterexample :
    build_display_items [⟨"Foo Site", "bar.com", "General", ""⟩] "" "foo" =
      [(0, ⟨"Foo Site", "bar.com", "General", ""⟩)]
    ∧ build_display_items [⟨"Foo Site", "bar.com", "General", ""⟩] "" "FOO" = [] := by
  constructor
  · decide
  · decide

/-- `clamp` (main.py:122-123): `max(lower, min(value, upper))`. -/
def clamp (value lower upper : Int) : Int :=
  max lower (min value upper)

/-- `ensure_visible` (main.py:126-131). -/
def ensure_visible (selected offset list_height : Int) : Int :=
  if selected < offset then selected
  else if selected ≥ offset + list_height then selected - list_height + 1
  else offset

/-- `set_status` (main.py:615-616): the body is a bare `return`, so the
message is discarded and the `status` variable it was meant to update is
left untouched; modelled as the identity on the threaded status. -/
def set_status (status : String) (_message : String) : String :=
  status

/-- `make_bookmark` (main.py:107-119): trims all four fields, rejects an
empty title or url, defaults an empty folder to "General" (used by the
CLI add path; the interactive add appends a dict directly). -/
def make_bookmark (title url folder note : String) : Except String Bookmark :=
  let cleaned_title := pyStrip title
  let cleaned_url := pyStrip url
  if cleaned_title = "" ∨ cleaned_url = "" then
    Except.error "Title and URL are required."
  else
    let folder_or := if folder = "" then "General" else folder
    let cleaned_folder := if pyStrip folder_or = "" then "General" else pyStrip folder_or
    Except.ok ⟨cleaned_title, cleaned_url, cleaned_folder, pyStrip note⟩

/-- The interactive Add flow (main.py:818-840) after the folder prompt:
`titleEntry`, `urlEntry`, `noteEntry` are the texts committed in the
three `prompt_input` calls (which return them stripped; stripping is
applied here exactly as `prompt_input`'s commit does).  An empty title
or url aborts; otherwise the record is appended, the display list is
rebuilt with the folder filter only (as at main.py:832-837), and the
last visible item is selected when there is one. -/
def addFlow (bookmarks : List Bookmark) (folderFilter folder titleEntry urlEntry noteEntry : String)
    (selected : Int) : List Bookmark × Int :=
  let title := pyStrip titleEntry
  if title = "" then (bookmarks, selected)
  else
    let url := pyStrip urlEntry
    if url = "" then (bookmarks, selected)
    else
      let note := pyStrip noteEntry
      let bookmarks2 := bookmarks ++ [⟨title, url, folder, note⟩]
      let disp := folderItems bookmarks2 folderFilter
      (bookmarks2, if disp.isEmpty then selected else (disp.length : Int) - 1)

/-- The Add flow with the transient status threaded through, calling
`set_status` with the exact messages of main.py:823, 827, 840 (the
quotes around the title in the success message are elided). -/
def addFlowStatus (bookmarks : List Bookmark)
    (folderFilter folder titleEntry urlEntry noteEntry : String)
    (selected : Int) (status : String) : List Bookmark × Int × String :=
  let title := pyStrip titleEntry
  if title = "" then (bookmarks, selected, set_status status "Add canceled (empty title).")
  else
    let url := pyStrip urlEntry
    if url = "" then (bookmarks, selected, set_status status "Add canceled (empty URL).")
    else
      let r := addFlow bookmarks folderFilter folder titleEntry urlEntry noteEntry selected
      (r.1, r.2, set_status status ("Added " ++ title ++ "."))

/-- The search stage only removes items, so the searched display list is
never longer than the folder-filtered one. -/
theorem build_length_le (bookmarks : List Bookmark) (folderFilter query : String) :
    (build_display_items bookmarks folderFilter query).length ≤
      (folderItems bookmarks folderFilter).length := by
  rw [build_display_items_eq_filter]
  exact List.length_filter_le _ _

/-- C2.  An Add whose title or url is empty after stripping leaves the
collection (and the selection) exactly unchanged; an Add with non-empty
title and url appends exactly one record at the end, and selects the
last item among the currently visible items: immediately the last of
the folder-filtered list, and, after the clamp the main loop applies
before the next render, the last of the fully filtered visible list. -/
theorem C2_add (bookmarks : List Bookmark)
    (folderFilter folder titleEntry urlEntry noteEntry searchQuery : String) (selected : Int) :
    ((pyStrip titleEntry = "" ∨ pyStrip urlEntry = "") →
      addFlow bookmarks folderFilter folder titleEntry urlEntry noteEntry selected =
        (bookmarks, selected))
    ∧ (pyStrip titleEntry ≠ "" → pyStrip urlEntry ≠ "" →
        (addFlow bookmarks folderFilter folder titleEntry urlEntry noteEntry selected).1 =
          bookmarks ++ [⟨pyStrip titleEntry, pyStrip urlEntry, folder, pyStrip noteEntry⟩]
        ∧ (addFlow bookmarks folderFilter folder titleEntry urlEntry noteEntry selected).1.length =
            bookmarks.length + 1
        ∧ (folderItems (addFlow bookmarks folderFilter folder titleEntry urlEntry noteEntry
              selected).1 folderFilter ≠ [] →
            (addFlow bookmarks folderFilter folder titleEntry urlEntry noteEntry selected).2 =
              (folderItems (addFlow bookmarks folderFilter folder titleEntry urlEntry noteEntry
                selected).1 folderFilter).length - 1)
        ∧ (build_display_items (addFlow bookmarks folderFilter folder titleEntry urlEntry
              noteEntry selected).1 folderFilter searchQuery ≠ [] →
            clamp (addFlow bookmarks folderFilter folder titleEntry urlEntry noteEntry selected).2
                0 (max 0 ((build_display_items (addFlow bookmarks folderFilter folder titleEntry
                  urlEntry noteEntry selected).1 folderFilter searchQuery).length - 1)) =
              (build_display_items (addFlow bookmarks folderFilter folder titleEntry urlEntry
                noteEntry selected).1 folderFilter searchQuery).length - 1)) := by
  constructor
  · intro h
    rcases h with h | h
    · simp [addFlow, h]
    · by_cases ht : pyStrip titleEntry = ""
      · simp [addFlow, ht]
      · simp [addFlow, ht, h]
  · intro ht hu
    have haddeq : addFlow bookmarks folderFilter folder titleEntry urlEntry noteEntry selected =
        (bookmarks ++ [⟨pyStrip titleEntry, pyStrip urlEntry, folder, pyStrip noteEntry⟩],
          if (folderItems (bookmarks ++
              [⟨pyStrip titleEntry, pyStrip urlEntry, folder, pyStrip noteEntry⟩])
              folderFilter).isEmpty then selected
          else ((folderItems (bookmarks ++
              [⟨pyStrip titleEntry, pyStrip urlEntry, folder, pyStrip noteEntry⟩])
              folderFilter).length : Int) - 1) := by
      simp [addFlow, ht, hu]
    refine ⟨by rw [haddeq], by rw [haddeq]; simp, ?_, ?_⟩
    · intro hne
      rw [haddeq] at hne ⊢
      simp only at hne ⊢
      have : ¬ (folderItems (bookmarks ++
          [⟨pyStrip titleEntry, pyStrip urlEntry, folder, pyStrip noteEntry⟩])
          folderFilter).isEmpty := by
        simpa [List.isEmpty_iff] using hne
      simp [this]
    · intro hne
      have h1 : (addFlow bookmarks folderFilter folder titleEntry urlEntry noteEntry selected).1 =
          bookmarks ++ [⟨pyStrip titleEntry, pyStrip urlEntry, folder, pyStrip noteEntry⟩] := by
        rw [haddeq]
      rw [h1] at hne ⊢
      have hlen := build_length_le
        (bookmarks ++ [⟨pyStrip titleEntry, pyStrip urlEntry, folder, pyStrip noteEntry⟩])
        folderFilter searchQuery
      have hpos : 0 < (build_display_items
          (bookmarks ++ [⟨pyStrip titleEntry, pyStrip urlEntry, folder, pyStrip noteEntry⟩])
          folderFilter searchQuery).length :=
        List.length_pos.mpr hne
      have hfne : (folderItems
          (bookmarks ++ [⟨pyStrip titleEntry, pyStrip urlEntry, folder, pyStrip noteEntry⟩])
          folderFilter).isEmpty = false := by
        cases hM : folderItems
            (bookmarks ++ [⟨pyStrip titleEntry, pyStrip urlEntry, folder, pyStrip noteEntry⟩])
            folderFilter with
        | nil =>
          rw [hM] at hlen
          simp only [List.length_nil, Nat.le_zero] at hlen
          omega
        | cons a l => simp
      have h2 : (addFlow bookmarks folderFilter folder titleEntry urlEntry noteEntry selected).2 =
          ((folderItems
            (bookmarks ++ [⟨pyStrip titleEntry, pyStrip urlEntry, folder, pyStrip noteEntry⟩])
            folderFilter).length : Int) - 1 := by
        rw [haddeq]
        simp [hfne]
      rw [h2]
      have hfpos : 0 < (folderItems
          (bookmarks ++ [⟨pyStrip titleEntry, pyStrip urlEntry, folder, pyStrip noteEntry⟩])
          folderFilter).length := by omega
      simp only [clamp]
      omega

/-- C2 witness: title "X", url "https://x.test" appends and selects the
new last item; an empty title leaves the collection unchanged. -/
theorem C2_add_witness :
    (pyStrip "" = "" ∨ pyStrip "https://x.test" = "") ∧
    (addFlow [] "" "General" "" "https://x.test" "" 0 = ([], 0)) ∧
    ((addFlow [] "" "General" "X" "https://x.test" "" 0).1 =
      [⟨"X", "https://x.test", "General", ""⟩]) := by
  have h1 := (C2_add [] "" "General" "" "https://x.test" "" "" 0).1
  have h2 := (C2_add [] "" "General" "X" "https://x.test" "" "" 0).2
  refine ⟨Or.inl (by decide), h1 (Or.inl (by decide)), ?_⟩
  have h3 := (h2 (by decide) (by decide)).1
  rw [h3]
  decide

/-- C4 (status half refuted by the code).  A validation failure (empty
title after stripping) aborts the Add with the collection and selection
preserved and nothing fatal — but the footer status is returned
*unchanged*: `set_status` (main.py:615-616) is a bare `return`, so the
"Add canceled (empty title)." message is discarded and an empty status
stays empty instead of becoming a non-empty failure description. -/
theorem C4_validation_failure (bookmarks : List Bookmark)
    (folderFilter folder titleEntry urlEntry noteEntry : String) (selected : Int)
    (status : String) (h : pyStrip titleEntry = "") :
    addFlowStatus bookmarks folderFilter folder titleEntry urlEntry noteEntry selected status =
      (bookmarks, selected, status)
    ∧ ∀ st msg : String, set_status st msg = st := by
  refine ⟨?_, fun st msg => rfl⟩
  simp [addFlowStatus, set_status, h]

/-- C4 witness: the concrete aborted Add with an initially empty status
leaves the status empty. -/
theorem C4_validation_failure_witness :
    addFlowStatus [] "" "General" "" "https://x.test" "" 0 "" = ([], 0, "")
    ∧ ∀ st msg : String, set_status st msg = st :=
  C4_validation_failure [] "" "General" "" "https://x.test" "" 0 "" (by decide)

/-- C7.  The shrink clamp `clamp(selected, 0, max(0, n - 1))`
(main.py:122-123, applied at 725, 926, 955 before the next render)
lands in `[0, n-1]` for `n ≥ 1`, is `0` for `n = 0`, and clamps an
overflowing selection to the last valid index `n - 1`. -/
theorem C7_clamp_on_shrink (sel : Int) (n : Nat) :
    0 ≤ clamp sel 0 (max 0 ((n : Int) - 1))
    ∧ (1 ≤ n → clamp sel 0 (max 0 ((n : Int) - 1)) ≤ (n : Int) - 1)
    ∧ (n = 0 → clamp sel 0 (max 0 ((n : Int) - 1)) = 0)
    ∧ (1 ≤ n → (n : Int) - 1 ≤ sel → clamp sel 0 (max 0 ((n : Int) - 1)) = (n : Int) - 1) := by
  simp only [clamp]
  refine ⟨?_, ?_, ?_, ?_⟩ <;> intros <;> omega

/-- C7 witness: 5 visible items with selected=4, a delete shrinking the
visible set to 2 items clamps the selection to `min(4, 1) = 1`. -/
theorem C7_clamp_on_shrink_witness :
    clamp 4 0 (max 0 (((2 : Nat) : Int) - 1)) = ((2 : Nat) : Int) - 1 :=
  (C7_clamp_on_shrink 4 2).2.2.2 (by decide) (by decide)

/-- Navigation keys of the main list (main.py:784-803): k/Up, j/Down,
g/Home, G/End, or any key that leaves the selection alone. -/
inductive NavEvent
  | moveUp
  | moveDown
  | jumpTop
  | jumpBottom
  | stay
  deriving Repr, DecidableEq

/-- Selection update performed by the key dispatch (main.py:784-803)
with list focus; `total` is the number of display items. -/
def navApply (total : Nat) (selected : Int) : NavEvent → Int
  | NavEvent.moveUp => selected - 1
  | NavEvent.moveDown => selected + 1
  | NavEvent.jumpTop => 0
  | NavEvent.jumpBottom => max 0 ((total : Int) - 1)
  | NavEvent.stay => selected

/-- The list height the render derives from the terminal height `h`
(main.py:407-413 with `shortcuts_visible` true and the status always
empty, since `set_status` discards messages): `footer_rows = 3`,
`body_height = max(3, h - 6)`, `list_height = max(1, body_height - 2)`. -/
def list_height_of (h : Int) : Int :=
  max 1 (max 3 (h - 6) - 2)

/-- Visibility invariant of the spec: the selected row lies inside the
scrolled window. -/
def visOk (selected offset list_height : Int) : Prop :=
  offset ≤ selected ∧ selected < offset + list_height

instance (s o lh : Int) : Decidable (visOk s o lh) := by
  unfold visOk
  infer_instance

/-- The navigation cycles of the main loop (main.py:723-803), one entry
per cycle.  Each cycle, in source order: clamp the selection to the
display count, render (`draw_ui` sees the *previous* offset), run
`ensure_visible` on the height just used, then dispatch the key.  Each
input is `(terminal height, key)`; each output entry is
`((selected, offset, lh) at the render, (selected, offset, lh) right
after ensure_visible, where the loop blocks for the key)`. -/
def navRun (total : Nat) (sel off : Int) :
    List (Int × NavEvent) → List ((Int × Int × Int) × (Int × Int × Int))
  | [] => []
  | (h, ev) :: rest =>
    let lh := list_height_of h
    let s := clamp sel 0 (max 0 ((total : Int) - 1))
    let off2 := ensure_visible s off lh
    let s2 := navApply total s ev
    ((s, off, lh), (s, off2, lh)) :: navRun total s2 off2 rest

/-- `ensure_visible` unconditionally establishes the visibility
invariant for a non-negative selection and a positive height. -/
theorem ensure_visible_establishes (s o lh : Int) (hlh : 1 ≤ lh) :
    visOk s (ensure_visible s o lh) lh := by
  unfold ensure_visible visOk
  split
  · omega
  · split <;> omega

/-- C3, amended.  After any sequence of moveUp/moveDown/jumpTop/
jumpBottom/resize cycles, `offset ≤ selected < offset + listHeight`
holds at the point where each cycle blocks for input — that is,
immediately after `ensure_visible`, which the loop runs every cycle
*after* drawing; the render of a cycle still uses the previous offset,
so the invariant is only guaranteed at the post-`ensure_visible`
snapshot, not at every render. -/
theorem C3_visibility (total : Nat) (sel off : Int) (inputs : List (Int × NavEvent))
    (p : (Int × Int × Int) × (Int × Int × Int)) (hp : p ∈ navRun total sel off inputs) :
    visOk p.2.1 p.2.2.1 p.2.2.2 := by
  induction inputs generalizing sel off with
  | nil => simp [navRun] at hp
  | cons he rest ih =>
    rcases he with ⟨h, ev⟩
    simp only [navRun, List.mem_cons] at hp
    rcases hp with hp | hp
    · subst hp
      simp only
      refine ensure_visible_establishes _ _ _ ?_
      simp only [list_height_of]
      omega
    · exact ih _ _ hp

/-- C3 witness: a single idle cycle at terminal height 10 (list height
2) blocks with selected 0, offset 0 satisfying the invariant. -/
theorem C3_visibility_witness :
    visOk (((0, 0, 2), (0, 0, 2)) : (Int × Int × Int) × (Int × Int × Int)).2.1
      (((0, 0, 2), (0, 0, 2)) : (Int × Int × Int) × (Int × Int × Int)).2.2.1
      (((0, 0, 2), (0, 0, 2)) : (Int × Int × Int) × (Int × Int × Int)).2.2.2 :=
  C3_visibility 3 0 0 [(10, NavEvent.stay)] ((0, 0, 2), (0, 0, 2)) (by decide)

/-- C3 fails as stated: the render is *not* always inside the invariant.
With 3 items, list height 2 (terminal height 10) and two moveDown
cycles, the third cycle renders with selected = 2 and offset = 0, so
`selected < offset + listHeight` fails at that render (`ensure_visible`
only repairs the offset after `draw_ui` has already painted). -/
theorem C3_counterexample :
    ¬ (∀ p ∈ navRun 3 0 0
        [((10 : Int), NavEvent.moveDown), ((10 : Int), NavEvent.moveDown),
          ((10 : Int), NavEvent.stay)],
        visOk p.1.1 p.1.2.1 p.1.2.2) := by
  decide

/-- Keys handled by `folder_picker` (main.py:350-358): KEY_UP/k,
KEY_DOWN/j, Enter keys, Escape/q, and anything else (ignored, the loop
reads again). -/
inductive PickKey
  | up
  | down
  | commit
  | cancel
  | other
  deriving Repr, DecidableEq

/-- Keys that do not terminate the picker loop. -/
def isMoveKey : PickKey → Bool
  | PickKey.up => true
  | PickKey.down => true
  | PickKey.other => true
  | PickKey.commit => false
  | PickKey.cancel => false

/-- The `while True` body of `folder_picker` (main.py:342-358) over an
explicit key list: `idx` wraps with Python `%` (Euclidean remainder),
Enter returns `options[idx]`, Escape/q returns `options[initial_idx]`.
Returns the result (`none` when the input is exhausted, i.e. the real
loop would still be blocked) together with the number of keys read. -/
def pickerLoop (options : List String) (initial_idx : Int) (idx : Int) :
    List PickKey → Option String × Nat
  | [] => (none, 0)
  | k :: ks =>
    match k with
    | PickKey.up =>
      let r := pickerLoop options initial_idx ((idx - 1) % (options.length : Int)) ks
      (r.1, r.2 + 1)
    | PickKey.down =>
      let r := pickerLoop options initial_idx ((idx + 1) % (options.length : Int)) ks
      (r.1, r.2 + 1)
    | PickKey.commit => (options.get? idx.toNat, 1)
    | PickKey.cancel => (options.get? initial_idx.toNat, 1)
    | PickKey.other =>
      let r := pickerLoop options initial_idx idx ks
      (r.1, r.2 + 1)

/-- `folder_picker` (main.py:324-358): an empty option list returns the
empty string immediately, before any key is read; otherwise the loop
starts with the highlight at `initial_idx`. -/
def folder_picker (options : List String) (initial_idx : Int) (keys : List PickKey) :
    Option String × Nat :=
  if options.isEmpty then (some "", 0)
  else pickerLoop options initial_idx initial_idx keys

/-- Cancelling after any sequence of non-terminating keys returns the
option at `initial_idx`, independently of where the highlight moved. -/
theorem pickerLoop_cancel (options : List String) (i : Int) (ms : List PickKey)
    (hm : ∀ k ∈ ms, isMoveKey k = true) :
    ∀ idx, (pickerLoop options i idx (ms ++ [PickKey.cancel])).1 = options.get? i.toNat := by
  induction ms with
  | nil => intro idx; rfl
  | cons k rest ih =>
    intro idx
    have hk : isMoveKey k = true := hm k (List.mem_cons_self k rest)
    have hrest : ∀ k2 ∈ rest, isMoveKey k2 = true :=
      fun k2 h2 => hm k2 (List.mem_cons_of_mem k h2)
    cases k with
    | up => simpa [pickerLoop] using ih hrest _
    | down => simpa [pickerLoop] using ih hrest _
    | other => simpa [pickerLoop] using ih hrest _
    | commit => simp [isMoveKey] at hk
    | cancel => simp [isMoveKey] at hk

/-- C6.  For a non-empty option list with the initial index in range:
up/down move the highlight to `(idx - 1) % n` / `(idx + 1) % n`, commit
returns the highlighted option, and cancel — after any sequence of
non-terminating keys — returns the option at `initial_idx`. -/
theorem C6_picker (options : List String) (i idx : Int) (ks ms : List PickKey)
    (hi : i.toNat < options.length) (hidx : idx.toNat < options.length)
    (hm : ∀ k ∈ ms, isMoveKey k = true) :
    ((pickerLoop options i idx (PickKey.up :: ks)).1 =
      (pickerLoop options i ((idx - 1) % (options.length : Int)) ks).1)
    ∧ ((pickerLoop options i idx (PickKey.down :: ks)).1 =
      (pickerLoop options i ((idx + 1) % (options.length : Int)) ks).1)
    ∧ ((pickerLoop options i idx (PickKey.commit :: ks)).1 =
      some (options.get ⟨idx.toNat, hidx⟩))
    ∧ ((folder_picker options i (ms ++ [PickKey.cancel])).1 =
      some (options.get ⟨i.toNat, hi⟩)) := by
  have hne : options.isEmpty = false := by
    cases options with
    | nil => simp at hi
    | cons a l => simp
  refine ⟨rfl, rfl, ?_, ?_⟩
  · simp [pickerLoop, List.get?_eq_get hidx]
  · rw [folder_picker, hne]
    simp only [Bool.false_eq_true, if_false]
    rw [pickerLoop_cancel options i ms hm i, List.get?_eq_get hi]

/-- C6 witness: `pick(["A","B","C"], initialIndex=1)` then Escape
returns "B". -/
theorem C6_picker_witness :
    (folder_picker ["A", "B", "C"] 1 [PickKey.cancel]).1 = some "B" := by
  have h := (C6_picker ["A", "B", "C"] 1 1 [] [] (by decide) (by decide)
    (fun k hk => by simp at hk)).2.2.2
  simpa using h

/-- Any resolved picker result is one of the options: the wrap-around
arithmetic keeps the highlight inside `[0, n)`. -/
theorem pickerLoop_mem (options : List String) (i : Int)
    (hi0 : 0 ≤ i) (hi : i < (options.length : Int)) :
    ∀ (keys : List PickKey) (idx : Int), 0 ≤ idx → idx < (options.length : Int) →
      ∀ s, (pickerLoop options i idx keys).1 = some s → s ∈ options := by
  have hnz : (options.length : Int) ≠ 0 := by omega
  have hpos : (0 : Int) < (options.length : Int) := by omega
  intro keys
  induction keys with
  | nil =>
    intro idx _ _ s h
    simp [pickerLoop] at h
  | cons k ks ih =>
    intro idx h0 h1 s h
    cases k with
    | up =>
      simp only [pickerLoop] at h
      exact ih _ (Int.emod_nonneg _ hnz) (Int.emod_lt_of_pos _ hpos) s h
    | down =>
      simp only [pickerLoop] at h
      exact ih _ (Int.emod_nonneg _ hnz) (Int.emod_lt_of_pos _ hpos) s h
    | other =>
      simp only [pickerLoop] at h
      exact ih _ h0 h1 s h
    | commit =>
      simp only [pickerLoop] at h
      exact List.get?_mem h
    | cancel =>
      simp only [pickerLoop] at h
      exact List.get?_mem h

/-- C10.  The picker is total beyond the spec's precondition: an empty
option list yields the empty string with zero keys consumed, and any
resolved call on a non-empty list (initial index in range, as at every
call site) returns an element of the list. -/
theorem C10_picker_total (options : List String) (i : Int) (keys : List PickKey) (s : String)
    (hi0 : 0 ≤ i) (hi : i < (options.length : Int)) :
    (∀ ks : List PickKey, folder_picker [] i ks = (some "", 0))
    ∧ ((folder_picker options i keys).1 = some s → s ∈ options) := by
  refine ⟨fun ks => rfl, ?_⟩
  intro h
  have hne : options.isEmpty = false := by
    cases options with
    | nil =>
      exfalso
      simp only [List.length_nil, Nat.cast_zero] at hi
      omega
    | cons a l => simp
  rw [folder_picker, hne] at h
  simp only [Bool.false_eq_true, if_false] at h
  exact pickerLoop_mem options i hi0 hi keys i hi0 hi s h

/-- C10 witness: the singleton list with an immediate commit. -/
theorem C10_picker_total_witness :
    (∀ ks : List PickKey, folder_picker [] 0 ks = (some "", 0))
    ∧ ((folder_picker ["A"] 0 [PickKey.commit]).1 = some "A" → "A" ∈ ["A"]) :=
  C10_picker_total ["A"] 0 [PickKey.commit] "A" (by decide) (by decide)

/-- The yes/no keys accepted by the delete confirmation
(main.py:944): `y`=121, `Y`=89, `n`=110, `N`=78 as `ord` codes. -/
def isYesNoKey (k : Int) : Bool :=
  k = 121 || k = 89 || k = 110 || k = 78

/-- The confirmation loop (main.py:943-946): keep reading keys until
one of y/Y/n/N arrives; `some true` on y/Y, `some false` on n/N,
`none` when the input is exhausted (the real loop would still block). -/
def confirm_delete : List Int → Option Bool
  | [] => none
  | k :: ks =>
    if k = 121 ∨ k = 89 then some true
    else if k = 110 ∨ k = 78 then some false
    else confirm_delete ks

/-- The delete branch (main.py:928-956): nothing happens on an empty
display list; otherwise, after an accepting confirmation the record at
the selected item's original index is removed from the collection, the
display list is rebuilt with the folder filter only and the selection
re-clamped; a declining confirmation changes nothing. -/
def deleteFlow (bookmarks : List Bookmark) (folderFilter searchQuery : String) (sel : Nat)
    (keys : List Int) : Option (List Bookmark × Int) :=
  let disp := build_display_items bookmarks folderFilter searchQuery
  if disp.isEmpty then some (bookmarks, (sel : Int))
  else
    match confirm_delete keys with
    | none => none
    | some false => some (bookmarks, (sel : Int))
    | some true =>
      let original_index := (disp.getD sel (0, default)).1
      let bookmarks2 := bookmarks.eraseIdx original_index
      let disp2 := folderItems bookmarks2 folderFilter
      some (bookmarks2, clamp (sel : Int) 0 (max 0 ((disp2.length : Int) - 1)))

/-- Keys that are neither yes-keys nor no-keys are skipped by the
confirmation loop. -/
theorem confirm_delete_skips (junk keys : List Int)
    (hjunk : ∀ k ∈ junk, isYesNoKey k = false) :
    confirm_delete (junk ++ keys) = confirm_delete keys := by
  induction junk with
  | nil => rfl
  | cons k rest ih =>
    have hk : isYesNoKey k = false := hjunk k (List.mem_cons_self k rest)
    have hrest : ∀ k2 ∈ rest, isYesNoKey k2 = false :=
      fun k2 h2 => hjunk k2 (List.mem_cons_of_mem k h2)
    simp only [isYesNoKey, Bool.or_eq_false_iff, decide_eq_false_iff_not] at hk
    simp only [List.cons_append, confirm_delete]
    rw [if_neg (by tauto), if_neg (by tauto)]
    exact ih hrest

/-- C5.  Delete acts only after an explicit confirmation: keys other
than y/Y/n/N are ignored with no default-accept (and all-junk input
never resolves), a declining confirmation leaves the collection exactly
unchanged, and an accepting one removes exactly the record at the
selected item's original index. -/
theorem C5_delete (bookmarks : List Bookmark) (folderFilter searchQuery : String) (sel : Nat)
    (keys junk : List Int)
    (hsel : sel < (build_display_items bookmarks folderFilter searchQuery).length)
    (hjunk : ∀ k ∈ junk, isYesNoKey k = false) :
    (confirm_delete (junk ++ keys) = confirm_delete keys)
    ∧ (confirm_delete junk = none)
    ∧ (confirm_delete keys = some false →
        deleteFlow bookmarks folderFilter searchQuery sel keys = some (bookmarks, (sel : Int)))
    ∧ (confirm_delete keys = some true →
        deleteFlow bookmarks folderFilter searchQuery sel keys = some
          (bookmarks.eraseIdx
            ((build_display_items bookmarks folderFilter searchQuery).get ⟨sel, hsel⟩).1,
           clamp (sel : Int) 0 (max 0 (((folderItems
             (bookmarks.eraseIdx
               ((build_display_items bookmarks folderFilter searchQuery).get ⟨sel, hsel⟩).1)
             folderFilter).length : Int) - 1)))) := by
  have hne : (build_display_items bookmarks folderFilter searchQuery).isEmpty = false := by
    cases hM : build_display_items bookmarks folderFilter searchQuery with
    | nil => rw [hM] at hsel; simp at hsel
    | cons a l => simp
  have hget : (build_display_items bookmarks folderFilter searchQuery).getD sel (0, default) =
      (build_display_items bookmarks folderFilter searchQuery).get ⟨sel, hsel⟩ := by
    rw [List.getD_eq_getElem?_getD, List.getElem?_eq_getElem hsel]
    simp [List.get_eq_getElem]
  refine ⟨confirm_delete_skips junk keys hjunk, ?_, ?_, ?_⟩
  · have h := confirm_delete_skips junk [] hjunk
    simpa using h
  · intro h
    rw [deleteFlow, hne]
    simp only [Bool.false_eq_true, if_false]
    rw [h]
  · intro h
    rw [deleteFlow, hne]
    simp only [Bool.false_eq_true, if_false]
    rw [h, hget]

/-- C5 witness: with one record shown, a stray key then `n` declines
and keeps the collection; the same theorem also yields the accept and
junk-skipping facts at this input. -/
theorem C5_delete_witness :
    (confirm_delete ([120] ++ [110]) = confirm_delete [110])
    ∧ (confirm_delete [120] = none)
    ∧ (confirm_delete [110] = some false →
        deleteFlow [⟨"A", "a", "General", ""⟩] "" "" 0 [110] =
          some ([⟨"A", "a", "General", ""⟩], (0 : Int)))
    ∧ (confirm_delete [110] = some true →
        deleteFlow [⟨"A", "a", "General", ""⟩] "" "" 0 [110] = some
          (([⟨"A", "a", "General", ""⟩] : List Bookmark).eraseIdx
            ((build_display_items [⟨"A", "a", "General", ""⟩] "" "").get ⟨0, by decide⟩).1,
           clamp ((0 : Nat) : Int) 0 (max 0 (((folderItems
             (([⟨"A", "a", "General", ""⟩] : List Bookmark).eraseIdx
               ((build_display_items [⟨"A", "a", "General", ""⟩] "" "").get ⟨0, by decide⟩).1)
             "").length : Int) - 1)))) :=
  C5_delete [⟨"A", "a", "General", ""⟩] "" "" 0 [110] [120] (by decide)
    (fun k hk => by
      simp only [List.mem_singleton] at hk
      subst hk
      decide)

/-- Keys handled by `prompt_input` (main.py:295-318): Enter commits,
Escape cancels, Left/Right move the cursor, Backspace deletes before
the cursor, a printable character is inserted at the cursor, anything
else is ignored. -/
inductive EditKey
  | enter
  | esc
  | left
  | right
  | backspace
  | char (c : Char)
  | other
  deriving Repr, DecidableEq

/-- Keys that do not terminate the `prompt_input` loop. -/
def isEditingKey : EditKey → Bool
  | EditKey.enter => false
  | EditKey.esc => false
  | EditKey.left => true
  | EditKey.right => true
  | EditKey.backspace => true
  | EditKey.char _ => true
  | EditKey.other => true

/-- The pure buffer/cursor updates of `prompt_input` (main.py:303-318):
left is `max(0, pos-1)` (Nat subtraction), right clamps to the buffer
length, backspace pops before the cursor only when `pos > 0`, and a
printable character is inserted at the cursor (Python `list.insert`
clamps the index to the length).  Enter stops; Escape clears the
buffer and stops. -/
def applyEdits (buf : List Char) (pos : Nat) : List EditKey → List Char × Nat
  | [] => (buf, pos)
  | EditKey.left :: ks => applyEdits buf (pos - 1) ks
  | EditKey.right :: ks => applyEdits buf (min (pos + 1) buf.length) ks
  | EditKey.backspace :: ks =>
    if 0 < pos then applyEdits (buf.eraseIdx (pos - 1)) (pos - 1) ks
    else applyEdits buf pos ks
  | EditKey.char c :: ks => applyEdits (buf.insertIdx (min pos buf.length) c) (pos + 1) ks
  | EditKey.other :: ks => applyEdits buf pos ks
  | EditKey.enter :: _ => (buf, pos)
  | EditKey.esc :: _ => ([], pos)

/-- The `while True` loop of `prompt_input` (main.py:270-318) over an
explicit key list, recording the `on_change` invocations: the callback
fires at the top of an iteration whenever the previous keystroke
changed the buffer, so a content-changing key contributes the buffer
it produced, while Enter returns before any further invocation and
Escape clears the buffer and breaks before the would-be invocation.
First component: the committed buffer (`none` when the input is
exhausted and the real loop would still block); second: the buffers
passed to `on_change` after the initial one. -/
def promptLoop (buf : List Char) (pos : Nat) : List EditKey → Option (List Char) × List (List Char)
  | [] => (none, [])
  | EditKey.enter :: _ => (some buf, [])
  | EditKey.esc :: _ => (some [], [])
  | EditKey.left :: ks => promptLoop buf (pos - 1) ks
  | EditKey.right :: ks => promptLoop buf (min (pos + 1) buf.length) ks
  | EditKey.backspace :: ks =>
    if 0 < pos then
      let buf2 := buf.eraseIdx (pos - 1)
      let r := promptLoop buf2 (pos - 1) ks
      (r.1, buf2 :: r.2)
    else promptLoop buf pos ks
  | EditKey.char c :: ks =>
    let buf2 := buf.insertIdx (min pos buf.length) c
    let r := promptLoop buf2 (pos + 1) ks
    (r.1, buf2 :: r.2)
  | EditKey.other :: ks => promptLoop buf pos ks

/-- `prompt_input` (main.py:246-321): the buffer starts as the default
text with the cursor at its end, the commit value is the stripped
buffer, and `on_change` always fires once with the initial buffer
(`changed` starts true) before any key is read. -/
def prompt_input (default : String) (keys : List EditKey) : Option String × List String :=
  let r := promptLoop default.data default.data.length keys
  ((r.1).map (fun b => pyStrip (String.mk b)), (default.data :: r.2).map String.mk)

/-- Ending the key sequence with Enter commits the edited buffer;
ending it with Escape commits the empty buffer, whatever was edited. -/
theorem promptLoop_commit (ks : List EditKey) :
    ∀ (buf : List Char) (pos : Nat), (∀ k ∈ ks, isEditingKey k = true) →
      (promptLoop buf pos (ks ++ [EditKey.enter])).1 = some (applyEdits buf pos ks).1
      ∧ (promptLoop buf pos (ks ++ [EditKey.esc])).1 = some [] := by
  induction ks with
  | nil => intro buf pos _; exact ⟨rfl, rfl⟩
  | cons k rest ih =>
    intro buf pos h
    have hk : isEditingKey k = true := h k (List.mem_cons_self k rest)
    have hrest : ∀ k2 ∈ rest, isEditingKey k2 = true :=
      fun k2 h2 => h k2 (List.mem_cons_of_mem k h2)
    cases k with
    | enter => simp [isEditingKey] at hk
    | esc => simp [isEditingKey] at hk
    | left => simpa [promptLoop, applyEdits] using ih buf (pos - 1) hrest
    | right => simpa [promptLoop, applyEdits] using ih buf (min (pos + 1) buf.length) hrest
    | backspace =>
      by_cases hp : 0 < pos
      · simpa [promptLoop, applyEdits, hp] using ih (buf.eraseIdx (pos - 1)) (pos - 1) hrest
      · simpa [promptLoop, applyEdits, hp] using ih buf pos hrest
    | char c =>
      simpa [promptLoop, applyEdits] using
        ih (buf.insertIdx (min pos buf.length) c) (pos + 1) hrest
    | other => simpa [promptLoop, applyEdits] using ih buf pos hrest

/-- C8.  Enter returns the buffer stripped of outer whitespace; Escape
returns the empty string, discarding all edits regardless of the
initial text; each content-changing keystroke (insert, effective
backspace) contributes exactly one `on_change` invocation carrying the
untrimmed buffer it produced, and pure cursor movement (left/right)
contributes none. -/
theorem C8_line_editor (default : String) (ks : List EditKey) (buf : List Char) (pos : Nat)
    (c : Char) (hks : ∀ k ∈ ks, isEditingKey k = true) :
    ((prompt_input default (ks ++ [EditKey.enter])).1 =
      some (pyStrip (String.mk (applyEdits default.data default.data.length ks).1)))
    ∧ ((prompt_input default (ks ++ [EditKey.esc])).1 = some "")
    ∧ ((promptLoop buf pos (EditKey.char c :: ks)).2 =
        buf.insertIdx (min pos buf.length) c ::
          (promptLoop (buf.insertIdx (min pos buf.length) c) (pos + 1) ks).2)
    ∧ (0 < pos → (promptLoop buf pos (EditKey.backspace :: ks)).2 =
        buf.eraseIdx (pos - 1) :: (promptLoop (buf.eraseIdx (pos - 1)) (pos - 1) ks).2)
    ∧ ((promptLoop buf pos (EditKey.left :: ks)).2 = (promptLoop buf (pos - 1) ks).2)
    ∧ ((promptLoop buf pos (EditKey.right :: ks)).2 =
        (promptLoop buf (min (pos + 1) buf.length) ks).2) := by
  have hcommit := promptLoop_commit ks default.data default.data.length hks
  refine ⟨?_, ?_, ?_, ?_, rfl, rfl⟩
  · show ((promptLoop default.data default.data.length (ks ++ [EditKey.enter])).1).map
        (fun b => pyStrip (String.mk b)) =
      some (pyStrip (String.mk (applyEdits default.data default.data.length ks).1))
    rw [hcommit.1]
    rfl
  · show ((promptLoop default.data default.data.length (ks ++ [EditKey.esc])).1).map
        (fun b => pyStrip (String.mk b)) = some ""
    rw [hcommit.2]
    rfl
  · simp [promptLoop]
  · intro hp
    simp [promptLoop, hp]

/-- C8 witness: editing "ab" by inserting `c` at the end then Enter
commits; the whole conjunction is instantiated at a concrete input. -/
theorem C8_line_editor_witness :
    (prompt_input "ab" ([EditKey.char 'c'] ++ [EditKey.enter])).1 =
      some (pyStrip (String.mk
        (applyEdits "ab".data "ab".data.length [EditKey.char 'c']).1)) :=
  (C8_line_editor "ab" [EditKey.char 'c'] [] 0 'c' (by decide)).1

/-- The Edit flow with list focus (main.py:875-892): prompts title, url
and note over the record at the selected item's original index; an
empty title or url aborts, otherwise the record is overwritten in
place (keeping its folder). -/
def editFlow (bookmarks : List Bookmark) (folderFilter searchQuery : String) (sel : Nat)
    (titleEntry urlEntry noteEntry : String) : List Bookmark :=
  let disp := build_display_items bookmarks folderFilter searchQuery
  if disp.isEmpty then bookmarks
  else
    let p := disp.getD sel (0, default)
    let title := pyStrip titleEntry
    if title = "" then bookmarks
    else
      let url := pyStrip urlEntry
      if url = "" then bookmarks
      else
        bookmarks.set p.1 ⟨title, url, p.2.folder, pyStrip noteEntry⟩

/-- The Move flow (main.py:893-927): overwrites only the folder field
of the record at the selected item's original index (an empty folder
choice aborts), then rebuilds the display with folder and search
filters and re-clamps the selection. -/
def moveFlow (bookmarks : List Bookmark) (folderFilter searchQuery : String) (sel : Nat)
    (newFolder : String) : List Bookmark × Int :=
  let disp := build_display_items bookmarks folderFilter searchQuery
  if disp.isEmpty then (bookmarks, (sel : Int))
  else if newFolder = "" then (bookmarks, (sel : Int))
  else
    let original_index := (disp.getD sel (0, default)).1
    let old := bookmarks.getD original_index default
    let bookmarks2 := bookmarks.set original_index ⟨old.title, old.url, newFolder, old.note⟩
    let disp2 := build_display_items bookmarks2 folderFilter searchQuery
    (bookmarks2, clamp (sel : Int) 0 (max 0 ((disp2.length : Int) - 1)))

/-- External writes the interactive session can perform:
`save_bookmarks` (main.py:991, collection store) and `save_config`
(main.py:613, settings store, called by `apply_accent`). -/
inductive Effect
  | saveBookmarks
  | saveConfig
  deriving Repr, DecidableEq

/-- The per-session mutable state threaded through the main loop
(main.py:578-592), restricted to the pieces the mutation flows touch. -/
structure SessionState where
  bookmarks : List Bookmark
  folderFilter : String
  searchQuery : String
  selected : Int
  status : String
  deriving Repr, DecidableEq

/-- One dispatched input event of the main loop (main.py:764-989),
carrying the texts/keys its nested modal prompts resolved to. -/
inductive MainEvent
  | add (folder title url note : String)
  | editRecord (title url note : String)
  | moveRecord (folder : String)
  | delete (keys : List Int)
  | search (q : String)
  | setFilter (choice : String)
  | colorChange (code : Int)
  | navKey (ev : NavEvent)
  | quit
  | other
  deriving Repr, DecidableEq

/-- The effect of one non-quit event on the session state, paired with
the external writes it performs.  No branch of the dispatch calls
`save_bookmarks`; only the settings color change calls `save_config`
(via `apply_accent`, main.py:612-613). -/
def mainStep (st : SessionState) : MainEvent → SessionState × List Effect
  | MainEvent.add folder t u n =>
    let r := addFlowStatus st.bookmarks st.folderFilter folder t u n st.selected st.status
    ({ st with bookmarks := r.1, selected := r.2.1, status := r.2.2 }, [])
  | MainEvent.editRecord t u n =>
    ({ st with bookmarks :=
        editFlow st.bookmarks st.folderFilter st.searchQuery st.selected.toNat t u n }, [])
  | MainEvent.moveRecord f =>
    let r := moveFlow st.bookmarks st.folderFilter st.searchQuery st.selected.toNat f
    ({ st with bookmarks := r.1, selected := r.2 }, [])
  | MainEvent.delete keys =>
    match deleteFlow st.bookmarks st.folderFilter st.searchQuery st.selected.toNat keys with
    | some r => ({ st with bookmarks := r.1, selected := r.2, status := "" }, [])
    | none => (st, [])
  | MainEvent.search q =>
    ({ st with
        searchQuery := pyStrip q,
        selected := 0,
        status := set_status st.status
          (if pyStrip q = "" then "Search cleared."
           else "Searching for " ++ pyStrip q ++ ".") }, [])
  | MainEvent.setFilter choice =>
    (if choice = "<All>" then
      { st with
          folderFilter := "",
          selected := 0,
          status := set_status st.status "Filter cleared." }
     else
      { st with
          folderFilter := choice,
          selected := 0,
          status := set_status st.status ("Filtering by " ++ choice ++ ".") }, [])
  | MainEvent.colorChange _code => (st, [Effect.saveConfig])
  | MainEvent.navKey ev =>
    let total := (build_display_items st.bookmarks st.folderFilter st.searchQuery).length
    ({ st with selected := navApply total st.selected ev }, [])
  | MainEvent.quit => (st, [])
  | MainEvent.other => (st, [])

/-- The main loop (main.py:687-991): dispatch events until `q` breaks
the loop, then — and only then — `save_bookmarks` runs once
(main.py:991).  Returns the final state and the external writes in
order. -/
def sessionRun (st : SessionState) : List MainEvent → SessionState × List Effect
  | [] => (st, [])
  | MainEvent.quit :: _ => (st, [Effect.saveBookmarks])
  | ev :: evs =>
    let r := mainStep st ev
    let r2 := sessionRun r.1 evs
    (r2.1, r.2 ++ r2.2)

/-- No event handler writes the collection store. -/
theorem mainStep_no_save (st : SessionState) (ev : MainEvent) :
    Effect.saveBookmarks ∉ (mainStep st ev).2 := by
  cases ev with
  | delete keys =>
    simp only [mainStep]
    cases h : deleteFlow st.bookmarks st.folderFilter st.searchQuery st.selected.toNat keys with
    | none => simp
    | some r => simp
  | _ => simp [mainStep]

/-- Unfolding one non-quit loop iteration. -/
theorem sessionRun_cons (st : SessionState) (ev : MainEvent) (evs : List MainEvent)
    (h : ev ≠ MainEvent.quit) :
    sessionRun st (ev :: evs) =
      ((sessionRun (mainStep st ev).1 evs).1,
        (mainStep st ev).2 ++ (sessionRun (mainStep st ev).1 evs).2) := by
  cases ev with
  | quit => exact absurd rfl h
  | _ => rfl

/-- C9.  No add/edit/move/delete/search/filter/settings step ever
writes the collection store; `save_bookmarks` appears exactly once, as
the final effect, iff the session ends with an explicit quit. -/
theorem C9_save_once (st : SessionState) (evs : List MainEvent) :
    (MainEvent.quit ∉ evs → (sessionRun st evs).2.count Effect.saveBookmarks = 0)
    ∧ (MainEvent.quit ∈ evs → ∃ pre : List Effect,
        (sessionRun st evs).2 = pre ++ [Effect.saveBookmarks]
        ∧ pre.count Effect.saveBookmarks = 0) := by
  induction evs generalizing st with
  | nil =>
    refine ⟨fun _ => rfl, fun h => absurd h (List.not_mem_nil _)⟩
  | cons ev evs ih =>
    by_cases hq : ev = MainEvent.quit
    · subst hq
      refine ⟨fun h => absurd (List.mem_cons_self _ _) h, fun _ => ⟨[], rfl, rfl⟩⟩
    · rw [sessionRun_cons st ev evs hq]
      have hstep : ((mainStep st ev).2).count Effect.saveBookmarks = 0 :=
        List.count_eq_zero.mpr (mainStep_no_save st ev)
      constructor
      · intro h
        have h2 : MainEvent.quit ∉ evs := fun hmem => h (List.mem_cons_of_mem ev hmem)
        simp only [List.count_append, hstep, (ih (mainStep st ev).1).1 h2]
      · intro h
        have h2 : MainEvent.quit ∈ evs := by
          rcases List.mem_cons.mp h with h3 | h3
          · exact absurd h3.symm hq
          · exact h3
        rcases (ih (mainStep st ev).1).2 h2 with ⟨pre, hpre, hcount⟩
        refine ⟨(mainStep st ev).2 ++ pre, ?_, ?_⟩
        · simp only [hpre, List.append_assoc]
        · simp only [List.count_append, hstep, hcount]

/-- C9 witness: an idle event followed by quit yields exactly one
collection save, as the final effect. -/
theorem C9_save_once_witness :
    ∃ pre : List Effect,
      (sessionRun ⟨[], "", "", 0, ""⟩ [MainEvent.other, MainEvent.quit]).2 =
        pre ++ [Effect.saveBookmarks]
      ∧ pre.count Effect.saveBookmarks = 0 :=
  (C9_save_once ⟨[], "", "", 0, ""⟩ [MainEvent.other, MainEvent.quit]).2 (by decide)
